import Mathlib

/-!
Shallow embedding of the crawl engine of the Zeno web crawler:
`internal/pkg/crawl/capture.go` and `internal/pkg/crawl/kafka.go`.

URLs are modelled by their string representation.  `net/url.Parse` is
modelled by `parseURL`, which fails exactly on control characters (the
error case of the Go parser); a successfully parsed URL is represented
by the original string.  The HTTP transport (both the direct and the
proxied client expose the same `Do`) is modelled by a `Network`
oracle mapping a request URL to either a transport error or a
`Response`; the HTML parsing library is the out-of-scope DOM oracle of
the spec, so the outlink and asset sets it would extract are carried
on the `Response` itself.
-/

/-- `startsWithL s pat` : the character list `s` starts with `pat`. -/
def startsWithL : List Char → List Char → Bool
  | _, [] => true
  | [], _ :: _ => false
  | a :: as, b :: bs => a == b && startsWithL as bs

/-- `containsL pat s` : `pat` occurs as a contiguous run inside `s`. -/
def containsL (pat : List Char) : List Char → Bool
  | [] => startsWithL [] pat
  | a :: as => startsWithL (a :: as) pat || containsL pat as

/-- Models Go `strings.Contains(s, pat)`. -/
def strContains (s pat : String) : Bool :=
  containsL pat.toList s.toList

/-- Drop everything up to and including the first occurrence of `pat`;
`none` when `pat` does not occur. -/
def dropAfterL (pat : List Char) : List Char → Option (List Char)
  | [] => none
  | a :: as =>
    if startsWithL (a :: as) pat then some (List.drop pat.length (a :: as))
    else dropAfterL pat as

/-- Models `net/url.Parse`: the Go parser fails on control characters
in the URL and succeeds otherwise; the parsed URL is represented by
its string. -/
def parseURL (s : String) : Option String :=
  if s.toList.any (fun ch => ch.toNat < 32 || ch.toNat == 127) then none
  else some s

/-- Models `url.URL.Host` of a parsed absolute URL: the authority part
between `://` and the next slash ("" when there is no scheme part).
Only used for the hop-zero `Referer` value in `Capture`, which no
claim observes. -/
def urlHost (s : String) : String :=
  match dropAfterL "://".toList s.toList with
  | none => ""
  | some rest => String.mk (rest.takeWhile (fun ch => ch != '/'))

/-- `frontier.Item`: the unit of work.  `url` is the item URL (the Go
zero value, a nil `*url.URL`, is modelled by `""`), `parentItem` the
optional discovering item, `itemType` the `Type` field (`"seed"` or
`"asset"`), `hop` the seed-to-seed depth and `redirect` the current
redirect-chain length.  The URL hash field is omitted: no claim
observes it. -/
inductive Item : Type where
  | mk (url : String) (parentItem : Option Item) (itemType : String)
      (hop : Nat) (redirect : Nat) : Item

/-- The `URL` field (as a string). -/
def Item.url : Item → String
  | .mk u _ _ _ _ => u

/-- The `ParentItem` field. -/
def Item.parentItem : Item → Option Item
  | .mk _ p _ _ _ => p

/-- The `Type` field. -/
def Item.itemType : Item → String
  | .mk _ _ t _ _ => t

/-- The `Hop` field. -/
def Item.hop : Item → Nat
  | .mk _ _ _ h _ => h

/-- The `Redirect` field. -/
def Item.redirect : Item → Nat
  | .mk _ _ _ _ r => r

/-- Assign the `Redirect` field (capture.go: `newItem.Redirect = ...`). -/
def Item.setRedirect : Item → Nat → Item
  | .mk u p t h _, r => .mk u p t h r

/-- `item.ParentItem.URL.String()`.  Go dereferences `ParentItem`
unconditionally (a nil parent would panic); the model returns `""`
for an absent parent, and every call site below follows a guard or a
spec invariant that guarantees a parent. -/
def Item.parentURLStr : Item → String
  | .mk _ (some q) _ _ _ => q.url
  | .mk _ none _ _ _ => ""

/-- Modelled from the spec: `frontier.NewItem` is outside the provided
source files; per the spec data model it builds an Item from URL,
parent, type and hop, with a fresh redirect counter (capture.go sets
`Redirect` explicitly after calling it when following a redirect). -/
def NewItem (url : String) (parent : Option Item) (t : String) (hop : Nat) : Item :=
  Item.mk url parent t hop 0

/-- `new(frontier.Item)`: the zero value of the Item struct (nil URL
and empty type modelled by empty strings). -/
def zeroItem : Item :=
  Item.mk "" none "" 0 0

/-- Modelled from the spec: `isRedirection` is defined outside the
provided source files; per the spec a redirection is a status in the
3xx class. -/
def isRedirection (code : Nat) : Bool :=
  300 ≤ code && code < 400

/-- An `http.Request`: its URL and the headers explicitly set on it.
`http.NewRequest("GET", u, nil)` yields `{ url := u, headers := [] }`. -/
structure Request : Type where
  url : String
  headers : List (String × String)
  deriving DecidableEq

/-- `Header.Set k v`: replaces any previous value of `k`. -/
def hset (hs : List (String × String)) (k v : String) : List (String × String) :=
  (k, v) :: hs.filter (fun p => p.1 ≠ k)

/-- `Header.Get k`: `""` when the header is absent. -/
def hget (hs : List (String × String)) (k : String) : String :=
  match hs.find? (fun p => p.1 == k) with
  | some p => p.2
  | none => ""

/-- An `http.Response` as observed by the crawl engine.  `location`
and `contentType` are `Header.Get "location"` and
`Header.Get "Content-Type"` (`""` when absent).  `docOk` models
whether `goquery.NewDocumentFromResponse` succeeds, and `outlinksE` /
`assetsE` are the results of the out-of-scope extractor oracle on the
response body (`none` = extraction error).  Cookies are omitted: they
are forwarded to asset requests but nothing in the model observes
them. -/
structure Response : Type where
  statusCode : Nat
  location : String
  contentType : String
  docOk : Bool
  outlinksE : Option (List String)
  assetsE : Option (List String)
  deriving DecidableEq

/-- The transport oracle: `Client.Do` / `ClientProxied.Do` (the
`BypassProxy` dispatch selects between two clients with identical
interfaces, so one oracle models both).  `Except.error` is a
transport error. -/
abbrev Network : Type := String → Except Unit Response

/-- Relevant configuration of the `Crawl` aggregate. -/
structure Crawl : Type where
  userAgent : String
  maxRedirect : Nat
  maxHops : Nat
  workers : Nat

/-- The observable outcome of `executeGET`: the returned response (or
error), the URL of the last request issued (`resp.Request.URL`), the
number of `Do` calls performed, and the requests as issued (URL and
headers at the moment the request is handed to the transport). -/
structure ExecResult : Type where
  resp : Except Unit Response
  finalURL : String
  fetches : Nat
  requests : List Request

/-- capture.go `executeGET`: issue the GET, and on a redirection
status recurse on the `Location` target unless the location equals
the request URL or the item's redirect counter has reached
`MaxRedirect`.  The child item is built by `NewItem` and its
`Redirect` set to the parent's plus one.  The source then sets
`User-Agent`, `Accept-Encoding` and `Referer` on `req` — the ORIGINAL
request, which has already been issued — so those writes never reach
any request handed to the transport; the child request `newReq` is
issued exactly as `http.NewRequest` built it, with no headers. -/
def executeGET (c : Crawl) (net : Network) (item : Item) (req : Request) : ExecResult :=
  match net req.url with
  | .error _ => { resp := .error (), finalURL := req.url, fetches := 1, requests := [req] }
  | .ok resp =>
    if isRedirection resp.statusCode then
      if resp.location = req.url ∨ c.maxRedirect ≤ item.redirect then
        { resp := .ok resp, finalURL := req.url, fetches := 1, requests := [req] }
      else
        match parseURL resp.location with
        | none => { resp := .error (), finalURL := req.url, fetches := 1, requests := [req] }
        | some u =>
          let newItem := (NewItem u (some item) item.itemType item.hop).setRedirect (item.redirect + 1)
          let newReq : Request := { url := u, headers := [] }
          let r := executeGET c net newItem newReq
          { resp := r.resp, finalURL := r.finalURL, fetches := r.fetches + 1,
            requests := req :: r.requests }
    else
      { resp := .ok resp, finalURL := req.url, fetches := 1, requests := [req] }
termination_by c.maxRedirect - item.redirect
decreasing_by
  cases item
  simp only [NewItem, Item.setRedirect, Item.redirect, not_or] at *
  omega

/-- The observable outcome of `Capture`: whether `executeGET` was
invoked, whether the success log was emitted, the final response (when
the fetch succeeded), the items handed to `queueOutlinks`, and the
asset-loop bookkeeping (`queueDeltas` records the net contribution of
this capture to `Frontier.QueueCount` immediately after the decrement
at the top of each iteration; `queueNet` is the net contribution once
the loop is done; `assetsFetched` the asset items actually passed to
`captureAsset`). -/
structure CaptureResult : Type where
  fetched : Bool
  success : Bool
  finalResp : Option Response
  outlinks : List Item
  queueDeltas : List Int
  queueNet : Int
  assetsFetched : List Item

/-- The all-empty capture outcome (the early-return paths). -/
def emptyCaptureResult : CaptureResult :=
  { fetched := false, success := false, finalResp := none, outlinks := [],
    queueDeltas := [], queueNet := 0, assetsFetched := [] }

/-- Modelled from the spec: `queueOutlinks` is outside the provided
source files; per the spec, for each outlink URL it constructs an Item
with `parent = item`, `type = seed`, `hop = item.hop + 1` and pushes
it to the Frontier.  The result is the list of pushed items. -/
def queueOutlinks (outlinks : List String) (item : Item) : List Item :=
  outlinks.map (fun u => NewItem u (some item) "seed" (item.hop + 1))

/-- The asset loop of `Capture` (capture.go): `QueueCount` has just
been incremented by the number of assets, so the running net
contribution starts at `cur = assets.length`.  Each iteration first
decrements (`QueueCount.Incr(-1)`), records the contribution, skips
the asset when it equals the page's own URL, and otherwise builds the
asset item and calls `captureAsset` (whose errors are logged and
skipped, and which never touches `QueueCount`).  Returns the recorded
contributions, the asset items fetched, and the final contribution. -/
def assetLoop (item : Item) : Int → List String → List Int × List Item × Int
  | cur, [] => ([], [], cur)
  | cur, a :: rest =>
    let cur2 := cur - 1
    let out := assetLoop item cur2 rest
    if a = item.url then (cur2 :: out.1, out.2.1, out.2.2)
    else (cur2 :: out.1, NewItem a (some item) "asset" item.hop :: out.2.1, out.2.2)

/-- The tail of `Capture` from `extractAssets` on: on extraction error
log and return (outlinks, if any, were already handed off
asynchronously), otherwise increment `QueueCount` by the asset count
and run the asset loop. -/
def captureAssetsPhase (item : Item) (resp : Response) (olinks : List Item) : CaptureResult :=
  match resp.assetsE with
  | none =>
    { fetched := true, success := true, finalResp := some resp, outlinks := olinks,
      queueDeltas := [], queueNet := 0, assetsFetched := [] }
  | some assets =>
    let t := assetLoop item (Int.ofNat assets.length) assets
    { fetched := true, success := true, finalResp := some resp, outlinks := olinks,
      queueDeltas := t.1, queueNet := t.2.2, assetsFetched := t.2.1 }

/-- The part of capture.go `Capture` that runs once `executeGET` has
returned `r`: on transport error log and return; log success; return
unless the `Content-Type` contains `"text/"` (Go `strings.Contains`);
parse the base URL from the final response's request URL; build the
goquery document; extract-and-enqueue outlinks only when
`item.Hop < MaxHops` (handing them to `go queueOutlinks`, modelled by
its result list, with an early return — before assets — when outlink
extraction fails); then extract assets and run the asset loop. -/
def captureAfterFetch (c : Crawl) (item : Item) (r : ExecResult) : CaptureResult :=
  match r.resp with
  | .error _ => { emptyCaptureResult with fetched := true }
  | .ok resp =>
    if strContains resp.contentType "text/" = false then
      { emptyCaptureResult with fetched := true, success := true, finalResp := some resp }
    else
      match parseURL r.finalURL with
      | none => { emptyCaptureResult with fetched := true, success := true, finalResp := some resp }
      | some _base =>
        if resp.docOk = false then
          { emptyCaptureResult with fetched := true, success := true, finalResp := some resp }
        else
          if item.hop < c.maxHops then
            match resp.outlinksE with
            | none =>
              { emptyCaptureResult with fetched := true, success := true, finalResp := some resp }
            | some os => captureAssetsPhase item resp (queueOutlinks os item)
          else captureAssetsPhase item resp []

/-- capture.go `Capture`: build the GET request (`Referer` is the
parent URL when `item.Hop > 0` and the parent URL is non-empty, else
the item's host), fetch via `executeGET`, and continue with
`captureAfterFetch`. -/
def Capture (c : Crawl) (net : Network) (item : Item) : CaptureResult :=
  match parseURL item.url with
  | none => emptyCaptureResult
  | some _ =>
    let referer :=
      if 0 < item.hop ∧ 0 < item.parentURLStr.length then item.parentURLStr
      else urlHost item.url
    let req : Request := { url := item.url, headers := hset [] "Referer" referer }
    captureAfterFetch c item (executeGET c net item req)

/-- The decoded Kafka message schema `{u, hop, parent_url}`
(kafka.go `kafkaMessage`; `HopsCount` is a `uint8`, modelled as `Nat`
— every arithmetic step below is guarded, so no wrap occurs). -/
structure KMsg : Type where
  u : String
  hop : Nat
  parentURL : String
  deriving DecidableEq

/-- The message the producer builds from an item: URL, hop, and the
parent's URL when there is a parent (kafka.go `kafkaProducer`). -/
def itemToKafkaMessage (item : Item) : KMsg :=
  { u := item.url, hop := item.hop,
    parentURL := match item.parentItem with
                 | some p => p.url
                 | none => "" }

/-- kafka.go `kafkaProducer` loop over the items received on
`KafkaProducerChannel`: stop when `Finished` is set (modelled as a
flag constant over the run), otherwise marshal the message
(`json.Marshal` of this struct cannot fail) and call `Produce`; when
`produceOk` reports an error, push the item to `Frontier.PushChan`.
Returns the messages handed to `Produce` and the items pushed to the
local frontier. -/
def kafkaProducerRun (finished : Bool) (produceOk : KMsg → Bool) :
    List Item → List KMsg × List Item
  | [] => ([], [])
  | item :: rest =>
    if finished then ([], [])
    else
      let msg := itemToKafkaMessage item
      let out := kafkaProducerRun finished produceOk rest
      if produceOk msg then (msg :: out.1, out.2)
      else (msg :: out.1, item :: out.2)

/-- What one iteration of the kafka.go `kafkaConsumer` loop does
before any message is touched. -/
inductive ConsumerAction : Type where
  | stop : ConsumerAction
  | sleepRetry : ConsumerAction
  | spawnRead : ConsumerAction
  deriving DecidableEq

/-- The top of the kafka.go `kafkaConsumer` loop: if `Finished` is
set, wait and close (`stop`); else if
`ActiveWorkers >= Workers - Workers/10`, `time.Sleep(time.Second * 1)`
and `continue` — no Kafka read is issued for this iteration
(`sleepRetry`); else acquire a slot and spawn the reading task
(`spawnRead`). -/
def consumerStep (finished : Bool) (activeWorkers workers : Nat) : ConsumerAction :=
  if finished then ConsumerAction.stop
  else if workers - workers / 10 ≤ activeWorkers then ConsumerAction.sleepRetry
  else ConsumerAction.spawnRead

/-- The body of the kafka.go consumer task once `ReadMessage`
returned: `newItem` starts as `new(frontier.Item)` (the zero value);
on `json.Unmarshal` failure (`decoded = none`) or on failure to parse
`u`, return without pushing; when `parent_url` is non-empty but fails
to parse, only a warning is logged and the zero-valued `newItem` is
still pushed; otherwise the item (with its parent when `parent_url`
is non-empty) is built and pushed.  Returns the items pushed to
`Frontier.PushChan`. -/
def consumerHandleMessage : Option KMsg → List Item
  | none => []
  | some m =>
    match parseURL m.u with
    | none => []
    | some newURL =>
      if 0 < m.parentURL.length then
        match parseURL m.parentURL with
        | none => [zeroItem]
        | some p =>
          let newParentItemHops := if 0 < m.hop then m.hop - 1 else 0
          [NewItem newURL (some (NewItem p none "seed" newParentItemHops)) "seed" m.hop]
      else
        [NewItem newURL none "seed" m.hop]

/-- 301 response of `http://a/` pointing at `http://b/`. -/
def respA : Response :=
  { statusCode := 301, location := "http://b/", contentType := "", docOk := false,
    outlinksE := none, assetsE := none }

/-- 200 text/html response of `http://b/`. -/
def respB : Response :=
  { statusCode := 200, location := "", contentType := "text/html", docOk := true,
    outlinksE := some [], assetsE := some [] }

/-- Network for the one-hop redirect chain: `http://a/` answers 301
to `http://b/`, everything else answers 200. -/
def net3 : Network := fun s => if s = "http://a/" then Except.ok respA else Except.ok respB

/-- Configuration for the redirect-chain scenario. -/
def cfg3 : Crawl := { userAgent := "Zeno", maxRedirect := 5, maxHops := 1, workers := 10 }

/-- Seed item for the redirect-chain scenario. -/
def item3 : Item := Item.mk "http://a/" none "seed" 0 0

/-- Original request for the redirect-chain scenario. -/
def req3 : Request := { url := "http://a/", headers := [] }

/-- Formalisation of claim C4's own words: the `Content-Type` header
BEGINS with `"text/"`. -/
def contentTypeBeginsWithText (ct : String) : Bool :=
  startsWithL ct.toList "text/".toList

/-- 200 response whose `Content-Type` contains `"text/"` but does not
begin with it, with one outlink. -/
def resp4c : Response :=
  { statusCode := 200, location := "", contentType := "xtext/html", docOk := true,
    outlinksE := some ["http://y/"], assetsE := some [] }

/-- Constant network serving `resp4c`. -/
def net4c : Network := fun _ => Except.ok resp4c

/-- Configuration for the Content-Type scenarios. -/
def cfg4 : Crawl := { userAgent := "Zeno", maxRedirect := 5, maxHops := 1, workers := 10 }

/-- Seed item for the Content-Type scenarios. -/
def item4 : Item := Item.mk "http://x/" none "seed" 0 0

/-- 200 response with a non-text `Content-Type`. -/
def resp4w : Response :=
  { statusCode := 200, location := "", contentType := "application/pdf", docOk := true,
    outlinksE := some ["http://y/"], assetsE := some ["http://z/img.png"] }

/-- Constant network serving `resp4w`. -/
def net4w : Network := fun _ => Except.ok resp4w

/-- 200 text/html response with one outlink. -/
def resp2 : Response :=
  { statusCode := 200, location := "", contentType := "text/html", docOk := true,
    outlinksE := some ["http://y/"], assetsE := some [] }

/-- Constant network serving `resp2`. -/
def net2 : Network := fun _ => Except.ok resp2

/-- Configuration with `MaxHops = 1` for the hop-bound scenario. -/
def cfg2 : Crawl := { userAgent := "Zeno", maxRedirect := 5, maxHops := 1, workers := 10 }

/-- Item that already sits at the hop limit. -/
def item2 : Item :=
  Item.mk "http://x/" (some (Item.mk "http://w/" none "seed" 0 0)) "seed" 1 0

/-- One outlink item with a parent, for the producer scenario. -/
def itemP : Item :=
  Item.mk "http://p/" (some (Item.mk "http://q/" none "seed" 0 0)) "seed" 1 0

/-- Kafka message with URL, hop 2 and a parent URL. -/
def msg8 : KMsg := { u := "http://c/", hop := 2, parentURL := "http://b/" }

/-- Kafka message whose parent URL contains a control character and
therefore fails `url.Parse`. -/
def msg10 : KMsg := { u := "http://c/", hop := 2, parentURL := "http://b/\x01" }

/-- Helper: when the fetched response is not a redirection, or the
stop guard fires, `executeGET` performs exactly one fetch and returns
that response. -/
theorem executeGET_stop (c : Crawl) (net : Network) (item : Item) (req : Request)
    (resp : Response) (hnet : net req.url = Except.ok resp)
    (hstop : isRedirection resp.statusCode = false ∨ resp.location = req.url ∨
      c.maxRedirect ≤ item.redirect) :
    executeGET c net item req =
      { resp := Except.ok resp, finalURL := req.url, fetches := 1, requests := [req] } := by
  rw [executeGET, hnet]
  rcases hstop with h | h
  · simp [h]
  · simp [h]

/-- Helper: one followed redirect hop of `executeGET`, exposing the
child item and the child request as the source builds them. -/
theorem executeGET_step (c : Crawl) (net : Network) (item : Item) (req : Request)
    (resp : Response) (u : String) (hnet : net req.url = Except.ok resp)
    (hred : isRedirection resp.statusCode = true)
    (hloc : resp.location ≠ req.url) (hmax : item.redirect < c.maxRedirect)
    (hp : parseURL resp.location = some u) :
    executeGET c net item req =
      { resp := (executeGET c net
            ((NewItem u (some item) item.itemType item.hop).setRedirect (item.redirect + 1))
            { url := u, headers := [] }).resp,
        finalURL := (executeGET c net
            ((NewItem u (some item) item.itemType item.hop).setRedirect (item.redirect + 1))
            { url := u, headers := [] }).finalURL,
        fetches := (executeGET c net
            ((NewItem u (some item) item.itemType item.hop).setRedirect (item.redirect + 1))
            { url := u, headers := [] }).fetches + 1,
        requests := req :: (executeGET c net
            ((NewItem u (some item) item.itemType item.hop).setRedirect (item.redirect + 1))
            { url := u, headers := [] }).requests } := by
  rw [executeGET, hnet]
  have hstop : ¬(resp.location = req.url ∨ c.maxRedirect ≤ item.redirect) := by
    rw [not_or]
    exact ⟨hloc, by omega⟩
  simp [hred, hstop, hp]

/-- Helper: reading `Redirect` back after assigning it. -/
theorem Item.redirect_setRedirect (it : Item) (r : Nat) : (it.setRedirect r).redirect = r := by
  cases it
  rfl

/-- Helper: the fetch count of `executeGET` is bounded by the
remaining redirect budget plus one. -/
theorem executeGET_fetches_aux (c : Crawl) (net : Network) :
    ∀ (n : Nat) (item : Item) (req : Request), c.maxRedirect - item.redirect ≤ n →
      (executeGET c net item req).fetches ≤ c.maxRedirect - item.redirect + 1 := by
  intro n
  induction n with
  | zero =>
    intro item req h
    rw [executeGET]
    cases hnet : net req.url with
    | error e => simp
    | ok resp =>
      by_cases hred : isRedirection resp.statusCode
      · have hstop : resp.location = req.url ∨ c.maxRedirect ≤ item.redirect :=
          Or.inr (by omega)
        simp [hred, hstop]
      · simp [hred]
  | succ n ih =>
    intro item req h
    rw [executeGET]
    cases hnet : net req.url with
    | error e => simp
    | ok resp =>
      by_cases hred : isRedirection resp.statusCode
      · by_cases hstop : resp.location = req.url ∨ c.maxRedirect ≤ item.redirect
        · simp [hred, hstop]
        · cases hp : parseURL resp.location with
          | none => simp [hred, hstop, hp]
          | some u =>
            have hmax : item.redirect < c.maxRedirect := by
              rw [not_or] at hstop
              omega
            have hrec := ih
              ((NewItem u (some item) item.itemType item.hop).setRedirect (item.redirect + 1))
              { url := u, headers := [] }
              (by rw [Item.redirect_setRedirect]; omega)
            rw [Item.redirect_setRedirect] at hrec
            simp [hred, hstop, hp]
            omega
      · simp [hred]

/-- Claim C1: the recursive redirect follower `executeGET` is total
(its Lean embedding is a terminating function) and, for every item
and every chain of responses the network can produce, performs at
most `MaxRedirect + 1` fetches for one logical item: it recurses on a
3xx response only while the item's redirect counter is strictly below
`MaxRedirect`, each recursion carrying `redirect` incremented by
one. -/
theorem executeGET_redirect_bound (c : Crawl) (net : Network) (item : Item) (req : Request) :
    (executeGET c net item req).fetches ≤ c.maxRedirect + 1 := by
  have h := executeGET_fetches_aux c net (c.maxRedirect - item.redirect) item req (le_refl _)
  omega

/-- Claim C7: when the fetched response is a redirection whose
`Location` equals the request URL (a self-redirect), `executeGET`
performs exactly one fetch and returns the current response without
recursing. -/
theorem executeGET_self_redirect (c : Crawl) (net : Network) (item : Item) (req : Request)
    (resp : Response) (hnet : net req.url = Except.ok resp)
    (hred : isRedirection resp.statusCode = true) (hloc : resp.location = req.url) :
    (executeGET c net item req).fetches = 1 ∧
      (executeGET c net item req).resp = Except.ok resp := by
  rw [executeGET_stop c net item req resp hnet (Or.inr (Or.inl hloc))]
  exact ⟨rfl, rfl⟩

/-- A server answering every URL with a 301 whose Location is that
same URL. -/
def resp7 : Response :=
  { statusCode := 301, location := "http://a/", contentType := "", docOk := false,
    outlinksE := none, assetsE := none }

/-- Constant network for the self-redirect scenario. -/
def net7 : Network := fun _ => Except.ok resp7

/-- Configuration for the self-redirect scenario. -/
def cfg7 : Crawl := { userAgent := "Zeno", maxRedirect := 5, maxHops := 1, workers := 10 }

/-- Seed item for the self-redirect scenario. -/
def item7 : Item := Item.mk "http://a/" none "seed" 0 0

/-- Request for the self-redirect scenario. -/
def req7 : Request := { url := "http://a/", headers := [] }

/-- Witness for C7: on a concrete self-redirecting server, the
hypotheses hold and exactly one fetch happens. -/
theorem executeGET_self_redirect_witness :
    net7 req7.url = Except.ok resp7 ∧ isRedirection resp7.statusCode = true ∧
      resp7.location = req7.url ∧
      ((executeGET cfg7 net7 item7 req7).fetches = 1 ∧
        (executeGET cfg7 net7 item7 req7).resp = Except.ok resp7) :=
  ⟨rfl, by decide, by decide,
    executeGET_self_redirect cfg7 net7 item7 req7 resp7 rfl (by decide) (by decide)⟩

/-- Claim C3 (evidence of the divergence): on the concrete chain
`http://a/` → 301 → `http://b/`, the child request actually issued
for the redirect target carries no `User-Agent`, no `Accept-Encoding`
and no `Referer` header, although the configured user agent is
`"Zeno"` and the parent URL is `"http://a/"`: the source sets those
headers on the original, already-issued request. -/
theorem executeGET_redirect_header_bug :
    (executeGET cfg3 net3 item3 req3).requests.map
        (fun r => (r.url, hget r.headers "User-Agent", hget r.headers "Accept-Encoding",
          hget r.headers "Referer")) =
      [("http://a/", "", "", ""), ("http://b/", "", "", "")] ∧
    cfg3.userAgent = "Zeno" ∧ item3.url = "http://a/" := by
  have h1 : net3 req3.url = Except.ok respA := rfl
  have h2 : executeGET cfg3 net3 item3 req3 =
      { resp := (executeGET cfg3 net3
            ((NewItem "http://b/" (some item3) item3.itemType item3.hop).setRedirect
              (item3.redirect + 1)) { url := "http://b/", headers := [] }).resp,
        finalURL := (executeGET cfg3 net3
            ((NewItem "http://b/" (some item3) item3.itemType item3.hop).setRedirect
              (item3.redirect + 1)) { url := "http://b/", headers := [] }).finalURL,
        fetches := (executeGET cfg3 net3
            ((NewItem "http://b/" (some item3) item3.itemType item3.hop).setRedirect
              (item3.redirect + 1)) { url := "http://b/", headers := [] }).fetches + 1,
        requests := req3 :: (executeGET cfg3 net3
            ((NewItem "http://b/" (some item3) item3.itemType item3.hop).setRedirect
              (item3.redirect + 1)) { url := "http://b/", headers := [] }).requests } :=
    executeGET_step cfg3 net3 item3 req3 respA "http://b/" h1 (by decide) (by decide)
      (by decide) (by decide)
  have h3 : executeGET cfg3 net3
      ((NewItem "http://b/" (some item3) item3.itemType item3.hop).setRedirect
        (item3.redirect + 1)) { url := "http://b/", headers := [] } =
      { resp := Except.ok respB, finalURL := "http://b/", fetches := 1,
        requests := [{ url := "http://b/", headers := [] }] } :=
    executeGET_stop cfg3 net3 _ _ respB rfl (Or.inl (by decide))
  rw [h2, h3]
  exact ⟨rfl, rfl, rfl⟩

/-- Helper: the asset phase hands back the outlinks untouched. -/
theorem captureAssetsPhase_outlinks (item : Item) (resp : Response) (ol : List Item) :
    (captureAssetsPhase item resp ol).outlinks = ol := by
  unfold captureAssetsPhase
  cases resp.assetsE <;> rfl

/-- Helper: the asset phase reports the response it was given. -/
theorem captureAssetsPhase_finalResp (item : Item) (resp : Response) (ol : List Item) :
    (captureAssetsPhase item resp ol).finalResp = some resp := by
  unfold captureAssetsPhase
  cases resp.assetsE <;> rfl

/-- Helper: unfolding `Capture` when the item URL parses. -/
theorem Capture_eval (c : Crawl) (net : Network) (item : Item) (u : String)
    (hp : parseURL item.url = some u) :
    Capture c net item = captureAfterFetch c item (executeGET c net item
      { url := item.url, headers := hset [] "Referer"
          (if 0 < item.hop ∧ 0 < item.parentURLStr.length then item.parentURLStr
           else urlHost item.url) }) := by
  unfold Capture
  rw [hp]

/-- Claim C2: when `item.hop` has reached `MaxHops`, `Capture`
admits the item to no outlink extraction and enqueues zero outlinks
(this covers both `hop = MaxHops` and `hop > MaxHops`); the item is
still fetched whenever its URL parses into a request. -/
theorem capture_hop_bound (c : Crawl) (net : Network) (item : Item)
    (h : c.maxHops ≤ item.hop) :
    (Capture c net item).outlinks = [] ∧
      ((parseURL item.url).isSome → (Capture c net item).fetched = true) := by
  have hnot : ¬ item.hop < c.maxHops := by omega
  cases hp : parseURL item.url with
  | none =>
    unfold Capture
    rw [hp]
    simp [emptyCaptureResult]
  | some u =>
    rw [Capture_eval c net item u hp]
    constructor
    · unfold captureAfterFetch
      cases hres : (executeGET c net item _).resp with
      | error e => simp [emptyCaptureResult]
      | ok resp =>
        by_cases ht : strContains resp.contentType "text/" = false
        · simp [ht, emptyCaptureResult]
        · simp only [ht, if_false]
          cases hb : parseURL (executeGET c net item _).finalURL with
          | none => simp [emptyCaptureResult]
          | some b =>
            by_cases hd : resp.docOk = false
            · simp [hd, emptyCaptureResult]
            · simp [hd, hnot, captureAssetsPhase_outlinks]
    · intro _
      unfold captureAfterFetch
      cases hres : (executeGET c net item _).resp with
      | error e => rfl
      | ok resp =>
        by_cases ht : strContains resp.contentType "text/" = false
        · simp [ht, emptyCaptureResult]
        · simp only [ht, if_false]
          cases hb : parseURL (executeGET c net item _).finalURL with
          | none => rfl
          | some b =>
            by_cases hd : resp.docOk = false
            · simp [hd, emptyCaptureResult]
            · simp only [hd, if_false, hnot, if_false]
              unfold captureAssetsPhase
              cases resp.assetsE <;> rfl

/-- Helper: when the final response's `Content-Type` does not contain
`"text/"`, `captureAfterFetch` is the immediate post-success return. -/
theorem captureAfterFetch_nontext (c : Crawl) (item : Item) (r : ExecResult)
    (resp : Response) (h1 : (captureAfterFetch c item r).finalResp = some resp)
    (h2 : strContains resp.contentType "text/" = false) :
    captureAfterFetch c item r =
      { emptyCaptureResult with fetched := true, success := true, finalResp := some resp } := by
  unfold captureAfterFetch at h1 ⊢
  cases hres : r.resp with
  | error e => rw [hres] at h1; simp [emptyCaptureResult] at h1
  | ok resp0 =>
    rw [hres] at h1
    by_cases ht : strContains resp0.contentType "text/" = false
    · simp only [ht, if_true] at h1 ⊢
      simp [emptyCaptureResult] at h1
      rw [h1]
    · simp only [ht, if_false] at h1 ⊢
      cases hb : parseURL r.finalURL with
      | none =>
        rw [hb] at h1
        simp [emptyCaptureResult] at h1
        rw [← h1] at h2
        exact absurd h2 ht
      | some b =>
        rw [hb] at h1
        by_cases hd : resp0.docOk = false
        · simp only [hd, if_true] at h1 ⊢
          simp [emptyCaptureResult] at h1
          rw [← h1] at h2
          exact absurd h2 ht
        · simp only [hd, if_false] at h1 ⊢
          by_cases hh : item.hop < c.maxHops
          · simp only [hh, if_true] at h1 ⊢
            cases ho : resp0.outlinksE with
            | none =>
              rw [ho] at h1
              simp [emptyCaptureResult] at h1
              rw [← h1] at h2
              exact absurd h2 ht
            | some os =>
              rw [ho] at h1
              simp [captureAssetsPhase_finalResp] at h1
              rw [← h1] at h2
              exact absurd h2 ht
          · simp only [hh, if_false] at h1 ⊢
            simp [captureAssetsPhase_finalResp] at h1
            rw [← h1] at h2
            exact absurd h2 ht

/-- Claim C4, amended: responses are parsed for outlinks and assets
only when the `Content-Type` header CONTAINS `"text/"` as a substring
(Go `strings.Contains`, not a prefix test); for any response whose
`Content-Type` does not contain `"text/"`, `Capture` returns
immediately after logging success, with empty outlink and asset
sets. -/
theorem capture_nontext (c : Crawl) (net : Network) (item : Item) (resp : Response)
    (h1 : (Capture c net item).finalResp = some resp)
    (h2 : strContains resp.contentType "text/" = false) :
    (Capture c net item).outlinks = [] ∧ (Capture c net item).queueDeltas = [] ∧
      (Capture c net item).assetsFetched = [] ∧ (Capture c net item).success = true := by
  cases hp : parseURL item.url with
  | none =>
    unfold Capture at h1
    rw [hp] at h1
    simp [emptyCaptureResult] at h1
  | some u =>
    rw [Capture_eval c net item u hp] at h1 ⊢
    rw [captureAfterFetch_nontext c item _ resp h1 h2]
    exact ⟨rfl, rfl, rfl, rfl⟩

/-- Counterexample for C4 as stated: a response whose `Content-Type`
`"xtext/html"` does NOT begin with `"text/"` is nevertheless parsed,
and `Capture` enqueues its outlink instead of returning immediately
with empty sets. -/
theorem capture_contentType_counterexample :
    contentTypeBeginsWithText resp4c.contentType = false ∧
      (Capture cfg4 net4c item4).outlinks = [NewItem "http://y/" (some item4) "seed" 1] := by
  constructor
  · decide
  · rw [Capture_eval cfg4 net4c item4 "http://x/" rfl,
      executeGET_stop cfg4 net4c item4 _ resp4c rfl (Or.inl (by decide))]
    rfl

/-- Witness for the amended C4: a concrete non-text response reaches
the hypotheses and yields empty outlink and asset sets. -/
theorem capture_nontext_witness :
    (Capture cfg4 net4w item4).finalResp = some resp4w ∧
      strContains resp4w.contentType "text/" = false ∧
      ((Capture cfg4 net4w item4).outlinks = [] ∧
        (Capture cfg4 net4w item4).queueDeltas = [] ∧
        (Capture cfg4 net4w item4).assetsFetched = [] ∧
        (Capture cfg4 net4w item4).success = true) := by
  have hfr : (Capture cfg4 net4w item4).finalResp = some resp4w := by
    rw [Capture_eval cfg4 net4w item4 "http://x/" rfl,
      executeGET_stop cfg4 net4w item4 _ resp4w rfl (Or.inl (by decide))]
    rfl
  exact ⟨hfr, by decide, capture_nontext cfg4 net4w item4 resp4w hfr (by decide)⟩

/-- Witness for C2: a concrete item at `hop = MaxHops`, against a
server offering an outlink, is fetched and enqueues nothing. -/
theorem capture_hop_bound_witness :
    cfg2.maxHops ≤ item2.hop ∧
      ((Capture cfg2 net2 item2).outlinks = [] ∧
        ((parseURL item2.url).isSome → (Capture cfg2 net2 item2).fetched = true)) :=
  ⟨by decide, capture_hop_bound cfg2 net2 item2 (by decide)⟩

/-- Helper: closed form of the asset loop: the recorded contribution
at the i-th iteration (0-based here) is `cur - (i + 1)`, and after
the loop the running contribution is `cur` minus the number of
iterations. -/
theorem assetLoop_trace (item : Item) :
    ∀ (l : List String) (cur : Int),
      (assetLoop item cur l).1 =
        (List.range l.length).map (fun i : Nat => cur - ((i : Int) + 1)) ∧
      (assetLoop item cur l).2.2 = cur - l.length := by
  intro l
  induction l with
  | nil => intro cur; simp [assetLoop]
  | cons a rest ih =>
    intro cur
    have h := ih (cur - 1)
    have hmap : (List.range (rest.length + 1)).map (fun i : Nat => cur - ((i : Int) + 1)) =
        (cur - 1) :: (List.range rest.length).map
          (fun i : Nat => (cur - 1) - ((i : Int) + 1)) := by
      rw [List.range_succ_eq_map]
      simp only [List.map_cons, List.map_map]
      congr 1
      refine List.map_congr_left ?_
      intro i _
      simp only [Function.comp_apply]
      push_cast
      ring
    unfold assetLoop
    by_cases ha : a = item.url
    · simp only [ha, if_true, List.length_cons, hmap]
      refine ⟨?_, ?_⟩
      · rw [h.1]
      · rw [h.2]; push_cast; ring
    · simp only [ha, if_false, List.length_cons, hmap]
      refine ⟨?_, ?_⟩
      · rw [h.1]
      · rw [h.2]; push_cast; ring

/-- Claim C9: in `Capture`'s asset loop (embedded as `assetLoop` and
entered by `captureAssetsPhase` with the running contribution already
incremented to the asset count), the contribution recorded right
after the decrement at the top of the i-th iteration (1-based) is
`assets.length - i`, and once the loop completes the net change to
`QueueCount` from asset handling is zero. -/
theorem capture_assetLoop_queue_accounting (item : Item) (assets : List String) :
    (assetLoop item (Int.ofNat assets.length) assets).1 =
      (List.range assets.length).map
        (fun i : Nat => (assets.length : Int) - ((i : Int) + 1)) ∧
    (assetLoop item (Int.ofNat assets.length) assets).2.2 = 0 := by
  have h := assetLoop_trace item assets (Int.ofNat assets.length)
  refine ⟨?_, ?_⟩
  · rw [h.1, Int.ofNat_eq_natCast]
  · rw [h.2, Int.ofNat_eq_natCast]
    omega

/-- Claim C5: when the consumer observes, at the top of its loop,
that `ActiveWorkers` is at least nine tenths of `Workers` (the exact
rational comparison `ActiveWorkers >= Workers*9/10`, i.e.
`10*ActiveWorkers >= 9*Workers`, which over the integers coincides
with the source's `ActiveWorkers >= Workers - Workers/10`), and the
crawl is not finished, the iteration issues no Kafka read: it sleeps
one second and retries the loop instead of acquiring a slot. -/
theorem consumer_admission_control (finished : Bool) (activeWorkers workers : Nat)
    (h1 : finished = false) (h2 : 9 * workers ≤ 10 * activeWorkers) :
    consumerStep finished activeWorkers workers = ConsumerAction.sleepRetry := by
  subst h1
  unfold consumerStep
  rw [if_neg (by simp), if_pos (by omega)]

/-- Witness for C5: 14 active workers out of 15 trip the guard. -/
theorem consumer_admission_control_witness :
    (false = false) ∧ 9 * 15 ≤ 10 * 14 ∧
      consumerStep false 14 15 = ConsumerAction.sleepRetry :=
  ⟨rfl, by decide, consumer_admission_control false 14 15 rfl (by decide)⟩

/-- Claim C5 note: over the naturals the claim's threshold
`ActiveWorkers >= Workers*9/10` read exactly and the source's
`ActiveWorkers >= Workers - Workers/10` agree. -/
theorem consumer_threshold_agree (a w : Nat) :
    (9 * w ≤ 10 * a) ↔ (w - w / 10 ≤ a) := by
  omega

/-- Claim C6: every item taken from the outlink channel whose
`Produce` call errors is pushed to the local Frontier's push channel
— the item is never dropped on produce-side error. -/
theorem producer_fallback (produceOk : KMsg → Bool) (items : List Item) (item : Item)
    (h1 : item ∈ items) (h2 : produceOk (itemToKafkaMessage item) = false) :
    item ∈ (kafkaProducerRun false produceOk items).2 := by
  induction items with
  | nil => cases h1
  | cons a rest ih =>
    cases h1 with
    | head => simp [kafkaProducerRun, h2]
    | tail b h1 =>
      have hmem := ih h1
      by_cases hp : produceOk (itemToKafkaMessage a) = true
      · simp [kafkaProducerRun, hp]
        exact hmem
      · simp only [Bool.not_eq_true] at hp
        simp [kafkaProducerRun, hp]
        exact Or.inr hmem

/-- Witness for C6: with a broker that always errors, the one item
handed to the producer ends up on the frontier push channel. -/
theorem producer_fallback_witness :
    itemP ∈ [itemP] ∧ (fun _ : KMsg => false) (itemToKafkaMessage itemP) = false ∧
      itemP ∈ (kafkaProducerRun false (fun _ : KMsg => false) [itemP]).2 :=
  ⟨List.mem_singleton.mpr rfl, rfl,
    producer_fallback (fun _ : KMsg => false) [itemP] itemP (List.mem_singleton.mpr rfl) rfl⟩

/-- Claim C8: for a decoded Kafka message whose `u` parses, the
consumer pushes exactly one item: with a non-empty, parseable
`parent_url`, the item has URL `u`, type `seed`, the message's hop,
and a parent item carrying `parent_url` and hop `msg.hop - 1`
(`max(0, msg.hop - 1)` over the naturals); with an empty
`parent_url`, the pushed item has no parent. -/
theorem consumer_ingest (m : KMsg) (uu : String) (h1 : parseURL m.u = some uu) :
    (∀ pu, 0 < m.parentURL.length → parseURL m.parentURL = some pu →
        consumerHandleMessage (some m) =
          [Item.mk uu (some (Item.mk pu none "seed" (m.hop - 1) 0)) "seed" m.hop 0]) ∧
      (m.parentURL.length = 0 →
        consumerHandleMessage (some m) = [Item.mk uu none "seed" m.hop 0]) := by
  have hguard : (if 0 < m.hop then m.hop - 1 else 0) = m.hop - 1 := by
    rcases Nat.eq_zero_or_pos m.hop with h | h
    · simp [h]
    · simp [h]
  constructor
  · intro pu hlen hpu
    simp only [consumerHandleMessage]
    rw [h1]
    simp only [NewItem]
    rw [if_pos hlen, hpu]
    simp only [hguard]
  · intro hlen
    simp only [consumerHandleMessage]
    rw [h1]
    simp only [NewItem]
    rw [if_neg (by omega)]

/-- Witness for C8 (scenario S5): `{u: http://c/, hop: 2,
parent_url: http://b/}` yields a pushed item with hop 2 whose parent
has URL `http://b/` and hop 1. -/
theorem consumer_ingest_witness :
    parseURL msg8.u = some "http://c/" ∧ 0 < msg8.parentURL.length ∧
      parseURL msg8.parentURL = some "http://b/" ∧
      consumerHandleMessage (some msg8) =
        [Item.mk "http://c/" (some (Item.mk "http://b/" none "seed" 1 0)) "seed" 2 0] :=
  ⟨by decide, by decide, by decide,
    (consumer_ingest msg8 "http://c/" (by decide)).1 "http://b/" (by decide) (by decide)⟩

/-- Claim C10: for a decoded Kafka message whose `u` parses but whose
non-empty `parent_url` fails URL parsing, the consumer still pushes
one item, and it is the freshly zero-initialized `new(frontier.Item)`
— no URL, no type, hop 0 and no parent — rather than the child item
built from the message, and rather than nothing. -/
theorem consumer_parent_parse_failure (m : KMsg) (uu : String)
    (h1 : parseURL m.u = some uu) (h2 : 0 < m.parentURL.length)
    (h3 : parseURL m.parentURL = none) :
    consumerHandleMessage (some m) = [zeroItem] ∧
      zeroItem.url = "" ∧ zeroItem.itemType = "" ∧ zeroItem.hop = 0 ∧
      zeroItem.parentItem = none := by
  refine ⟨?_, rfl, rfl, rfl, rfl⟩
  simp only [consumerHandleMessage]
  rw [h1]
  simp only []
  rw [if_pos h2, h3]

/-- Witness for C10: a concrete message with an unparseable parent
URL pushes exactly the zero-valued item. -/
theorem consumer_parent_parse_failure_witness :
    parseURL msg10.u = some "http://c/" ∧ 0 < msg10.parentURL.length ∧
      parseURL msg10.parentURL = none ∧
      (consumerHandleMessage (some msg10) = [zeroItem] ∧
        zeroItem.url = "" ∧ zeroItem.itemType = "" ∧ zeroItem.hop = 0 ∧
        zeroItem.parentItem = none) :=
  ⟨by decide, by decide, by decide,
    consumer_parent_parse_failure msg10 "http://c/" (by decide) (by decide) (by decide)⟩
